import Mathlib

/-!
Shallow embedding of the Flight-Booking-Simulator-with-Dynamic-Pricing
repository (src/milestone3.py, with the pricing function shared verbatim by
src/backend2.py), together with theorems settling the frozen claims about it.

Modelling conventions:
* Money and timestamps are exact rationals (`ℚ`); timestamps count seconds,
  matching `datetime.total_seconds()`.  The Python code computes on IEEE
  floats; the band constants (0.8, 0.5, 0.2, -0.05, 0.6, 0.25, 0.4, 0.05,
  0.1, 50.0) are written as the exact rationals they denote.
* `round(x, 2)` is modelled as rounding `100*x` to the nearest integer and
  dividing by 100 (`round2`).
* Ambient effects are explicit parameters: the `now` read performed inside
  `calculate_dynamic_price` via `datetime.now(timezone.utc)` becomes a `now`
  argument of the model; each `random.*` draw becomes an argument (`rand_draw`
  for `random.uniform(-0.1, 0.4)`, `draw : Fin 6 → Fin 36` for the
  `random.choices` of `generate_pnr`, the payment outcome as a resolved
  `Bool`, the simulator's per-flight seat delta and demand level as functions
  of the loop index).
* Database rows are lists of structures; `SELECT ... WHERE x = v ... first()`
  is `List.find?`, `UPDATE ... WHERE x = v` is a `List.map` guarded on the
  key.  A SQL transaction that raises is modelled by the operation returning
  `Except` with the original state kept (rollback): either all updates of the
  unit happen or none.
* Fields no claim touches (booking_date timestamps, airport data, passenger
  first/last name) are omitted; `booking_id`/`passenger_id` AUTO_INCREMENT
  columns are modelled by explicit `next_*` counters.
-/

namespace FlightSim

/-- Booking lifecycle status, the `status` ENUM of the Bookings table
(`'PENDING','CONFIRMED','CANCELLED'`). -/
inductive BookingStatus
  | PENDING
  | CONFIRMED
  | CANCELLED
deriving DecidableEq

/-- Payment status, the `payment_status` ENUM (`'PENDING','PAID','FAILED'`). -/
inductive PaymentStatus
  | PENDING
  | PAID
  | FAILED
deriving DecidableEq

/-- The error responses raised by the booking endpoints of milestone3.py:
404 "Flight not found", 409 "No seats available", 404 "Booking not found",
400 "Booking not in PENDING state", 400 "Booking already cancelled". -/
inductive ApiError
  | FlightNotFound
  | NoSeatsAvailable
  | BookingNotFound
  | InvalidState
  | AlreadyCancelled
deriving DecidableEq

/-- A row of the Flights table (the columns the booking workflow reads). -/
structure Flight where
  flight_id : Nat
  base_fare : ℚ
  seats_available : Int
  total_seats : Int
  departure_time : ℚ
deriving DecidableEq

/-- A row of the Passengers table (the columns the booking workflow uses). -/
structure Passenger where
  passenger_id : Nat
  email : String
deriving DecidableEq

/-- A row of the Bookings table. -/
structure Booking where
  booking_id : Nat
  flight_id : Nat
  passenger_id : Nat
  seat_no : String
  status : BookingStatus
  payment_status : PaymentStatus
  pnr : Option String
  price : ℚ
deriving DecidableEq

/-- A row of the FareHistory table. -/
structure FareEntry where
  flight_id : Nat
  base_fare : ℚ
  dynamic_price : ℚ
  seats_available : Int
  total_seats : Int
  reason : String
deriving DecidableEq

/-- The database state shared by all endpoints and the market simulator. -/
structure DB where
  flights : List Flight
  passengers : List Passenger
  bookings : List Booking
  fare_history : List FareEntry
  next_passenger_id : Nat
  next_booking_id : Nat
deriving DecidableEq

/-! ## Dynamic pricing (milestone3.py lines 170-208, backend2.py lines 75-114) -/

/-- The `seat_factor` bands of `calculate_dynamic_price`:
`seat_ratio = seats_available / max(1, total_seats)`, then 0.8 below 10%,
0.5 below 25%, 0.2 below 50%, else -0.05. -/
def seatFactor (seats_available total_seats : Int) : ℚ :=
  let seat_ratio : ℚ := (seats_available : ℚ) / ((max 1 total_seats : Int) : ℚ)
  if seat_ratio < 1/10 then 4/5
  else if seat_ratio < 1/4 then 1/2
  else if seat_ratio < 1/2 then 1/5
  else -(1/20)

/-- The `time_factor` bands: `hours_left = max(0, (departure_time - now)/3600)`
(times in seconds), then 0.6 within 24h, 0.25 within 168h, else -0.05.
`now` is the ambient-clock value `datetime.now(timezone.utc)` read inside the
Python function. -/
def timeFactor (departure_time now : ℚ) : ℚ :=
  let hours_left : ℚ := max 0 ((departure_time - now) / 3600)
  if hours_left ≤ 24 then 3/5
  else if hours_left ≤ 168 then 1/4
  else -(1/20)

/-- The `demand_factor`: when a demand signal is supplied it is clamped to
[-0.5, 1.0] and scaled by 0.4; when omitted, the ambient draw
`random.uniform(-0.1, 0.4)` (here the explicit `rand_draw`) is used. -/
def demandFactor (simulated_demand : Option ℚ) (rand_draw : ℚ) : ℚ :=
  match simulated_demand with
  | none => rand_draw
  | some d => max (-(1/2)) (min 1 d) * (2/5)

/-- The `tier_bonus` fare-tier bands: 0 under 2000, 0.05 under 5000, else 0.1. -/
def tierBonus (base_fare : ℚ) : ℚ :=
  if base_fare < 2000 then 0
  else if base_fare < 5000 then 1/20
  else 1/10

/-- `round(x, 2)`: round to 2 decimal places. -/
def round2 (q : ℚ) : ℚ := ((round (q * 100) : Int) : ℚ) / 100

/-- `calculate_dynamic_price` of milestone3.py (identical in backend2.py):
`base_fare * (1 + seat_factor + time_factor + demand_factor + tier_bonus)`,
floored at 50.0 and rounded to 2 decimals.  `now` and `rand_draw` are the
ambient clock reading and the ambient random draw made inside the Python
function body. -/
def calculate_dynamic_price (base_fare : ℚ) (seats_available total_seats : Int)
    (departure_time : ℚ) (simulated_demand : Option ℚ) (now rand_draw : ℚ) : ℚ :=
  let dynamic_price := base_fare *
    (1 + seatFactor seats_available total_seats + timeFactor departure_time now
       + demandFactor simulated_demand rand_draw + tierBonus base_fare)
  round2 (max 50 dynamic_price)

/-! ## PNR generation (milestone3.py lines 100-102) -/

/-- `string.ascii_uppercase + string.digits`, the alphabet sampled by
`generate_pnr`. -/
def pnrAlphabet : List Char := "ABCDEFGHIJKLMNOPQRSTUVWXYZ0123456789".toList

/-- `generate_pnr()`: six independent draws from the 36-character alphabet,
joined into a string.  The `random.choices(..., k=6)` draws are the explicit
`draw` argument. -/
def generate_pnr (draw : Fin 6 → Fin 36) : String :=
  String.mk ((List.finRange 6).map
    (fun i => pnrAlphabet.get (Fin.cast (by decide) (draw i))))

/-! ## Row lookup / update helpers -/

/-- `SELECT ... FROM Flights WHERE flight_id = :fid ... first()`. -/
def findFlight (db : DB) (fid : Nat) : Option Flight :=
  db.flights.find? (fun f => f.flight_id == fid)

/-- `SELECT ... FROM Bookings WHERE booking_id = :bid ... first()`. -/
def findBooking (db : DB) (bid : Nat) : Option Booking :=
  db.bookings.find? (fun b => b.booking_id == bid)

/-- `UPDATE Flights SET seats_available = seats_available + delta WHERE
flight_id = :fid`. -/
def updateFlightSeats (db : DB) (fid : Nat) (delta : Int) : DB :=
  { db with flights := db.flights.map (fun f =>
      if f.flight_id == fid then { f with seats_available := f.seats_available + delta } else f) }

/-- `UPDATE Bookings SET ... WHERE booking_id = :bid`, with `g` the field
assignment. -/
def updateBooking (db : DB) (bid : Nat) (g : Booking → Booking) : DB :=
  { db with bookings := db.bookings.map (fun b =>
      if b.booking_id == bid then g b else b) }

/-! ## Booking workflow (milestone3.py lines 372-557) -/

/-- The seat-label computation of `start_booking`:
`used_count = total_seats - seats_available`, `seat_row_num = used_count + 1`,
`seat_letter = chr(65 + ((seat_row_num - 1) % 6))`, label `f"{row}{letter}"`. -/
def mkSeatNo (total_seats seats_available : Int) : String :=
  let used_count := total_seats - seats_available
  let seat_row_num := used_count + 1
  let seat_letter := Char.ofNat (65 + ((seat_row_num - 1) % 6).toNat)
  toString seat_row_num ++ String.mk [seat_letter]

/-- The find-or-create passenger step of `start_booking`
(`SELECT passenger_id FROM Passengers WHERE email = ...` then `INSERT` on
miss), returning the passenger id and the updated state. -/
def resolvePassenger (db : DB) (email : String) : Nat × DB :=
  match db.passengers.find? (fun p => p.email == email) with
  | some p => (p.passenger_id, db)
  | none =>
      (db.next_passenger_id,
       { db with passengers := db.passengers ++ [⟨db.next_passenger_id, email⟩],
                 next_passenger_id := db.next_passenger_id + 1 })

/-- `POST /bookings/start` (`start_booking`, milestone3.py lines 372-444):
404 if the flight does not exist; under the `FOR UPDATE` lock, 409 if
`seats_available <= 0`; otherwise resolve the passenger, assign a seat label,
price the hold (demand omitted, so the ambient draw applies), insert a
PENDING booking with a fresh id, and decrement `seats_available` — all in one
transaction.  On an error the transaction leaves no effect. -/
def start_booking (db : DB) (fid : Nat) (email : String) (now rand_draw : ℚ) :
    Except ApiError (DB × Booking) :=
  match findFlight db fid with
  | none => .error .FlightNotFound
  | some f =>
      if f.seats_available ≤ 0 then .error .NoSeatsAvailable
      else
        let pd := resolvePassenger db email
        let price := calculate_dynamic_price f.base_fare f.seats_available
          f.total_seats f.departure_time none now rand_draw
        let b : Booking :=
          { booking_id := db.next_booking_id, flight_id := fid,
            passenger_id := pd.1,
            seat_no := mkSeatNo f.total_seats f.seats_available,
            status := .PENDING, payment_status := .PENDING,
            pnr := none, price := price }
        let db1 := { pd.2 with bookings := pd.2.bookings ++ [b],
                               next_booking_id := db.next_booking_id + 1 }
        .ok (updateFlightSeats db1 fid (-1), b)

/-- `POST /bookings/pay` (`confirm_payment`, milestone3.py lines 446-521):
404 if the booking does not exist; 400 if its status is not PENDING.
`success` is the resolved payment outcome (the forced `simulate_success` or
the ambient `random.choice([True, False, True])`); `draw` feeds
`generate_pnr`.  On success: status CONFIRMED, pnr set, payment_status PAID;
seats untouched.  On failure: status CANCELLED, payment_status FAILED, and
`seats_available + 1` on the booking's flight.  One transaction. -/
def confirm_payment (db : DB) (bid : Nat) (success : Bool)
    (draw : Fin 6 → Fin 36) : Except ApiError DB :=
  match findBooking db bid with
  | none => .error .BookingNotFound
  | some b =>
      if b.status ≠ .PENDING then .error .InvalidState
      else if success then
        .ok (updateBooking db bid (fun x =>
          { x with status := .CONFIRMED, pnr := some (generate_pnr draw),
                   payment_status := .PAID }))
      else
        .ok (updateFlightSeats
          (updateBooking db bid (fun x =>
            { x with status := .CANCELLED, payment_status := .FAILED }))
          b.flight_id 1)

/-- The lookup predicate of `cancel_booking`:
`WHERE pnr = :pnr OR booking_id = :maybe_id` — the request string matches a
booking by confirmation code or by its decimal booking id. -/
def cancelMatches (code : String) (b : Booking) : Bool :=
  b.pnr == some code || toString b.booking_id == code

/-- `POST /bookings/cancel` (`cancel_booking`, milestone3.py lines 523-557):
404 if neither a pnr nor a raw booking id matches; 400 if the matched booking
is already CANCELLED; otherwise set status CANCELLED (payment_status and pnr
untouched) and `seats_available + 1` on the booking's flight, in one
transaction. -/
def cancel_booking (db : DB) (code : String) : Except ApiError DB :=
  match db.bookings.find? (cancelMatches code) with
  | none => .error .BookingNotFound
  | some b =>
      if b.status = .CANCELLED then .error .AlreadyCancelled
      else
        .ok (updateFlightSeats
          (updateBooking db b.booking_id (fun x => { x with status := .CANCELLED }))
          b.flight_id 1)

/-! ## Market simulator (milestone3.py lines 605-633, backend2.py 289-317) -/

/-- One loop body of `simulate_market` for flight `f` (read at tick start):
`new_seats = max(0, min(total_seats, seats_available + change))` with `change`
drawn from `[-3,-2,-1,0,1,2]`, write it back by flight id, price with a fresh
demand level and departure one day out, and append a FareHistory row tagged
'simulator'. -/
def simUpdateFlight (f : Flight) (change : Int) (demand : ℚ) (now rand_draw : ℚ)
    (db : DB) : DB :=
  let new_seats := max 0 (min f.total_seats (f.seats_available + change))
  let db1 := { db with flights := db.flights.map (fun (g : Flight) =>
      if g.flight_id == f.flight_id then { g with seats_available := new_seats } else g) }
  let price := calculate_dynamic_price f.base_fare new_seats f.total_seats
    (now + 86400) (some demand) now rand_draw
  { db1 with fare_history := db1.fare_history ++
      [{ flight_id := f.flight_id, base_fare := f.base_fare,
         dynamic_price := price, seats_available := new_seats,
         total_seats := f.total_seats, reason := "simulator" }] }

/-- The `for f in flights` loop of one `simulate_market` tick, with failure
injection: `failAt = some i` means the database call for the flight at loop
index `i` raises.  The whole loop runs inside one `try` with a single
`db.commit()` after it; an exception jumps to `db.rollback()`, so the working
state is discarded and the original state `orig` is kept, with the error
logged (the returned flag). -/
def tickGo (failAt : Option Nat) (i : Nat) (fls : List Flight)
    (changes : Nat → Int) (demands : Nat → ℚ) (now rand_draw : ℚ)
    (work orig : DB) : DB × Bool :=
  match fls with
  | [] => (work, false)
  | f :: rest =>
      if failAt = some i then (orig, true)
      else tickGo failAt (i + 1) rest changes demands now rand_draw
        (simUpdateFlight f (changes i) (demands i) now rand_draw work) orig

/-- One tick of `simulate_market`: iterate over the flights read at tick
start, committing at the end, rolling the whole tick back on a failure. -/
def simulate_market_tick (failAt : Option Nat) (changes : Nat → Int)
    (demands : Nat → ℚ) (now rand_draw : ℚ) (db : DB) : DB × Bool :=
  tickGo failAt 0 db.flights changes demands now rand_draw db db

/-- The `while True` loop of `simulate_market`: a failing tick logs and the
loop continues with the next tick on its fixed schedule. -/
def simulate_market_run (ticks : List (Option Nat × (Nat → Int) × (Nat → ℚ) × ℚ × ℚ))
    (db : DB) : DB :=
  ticks.foldl (fun s t => (simulate_market_tick t.1 t.2.1 t.2.2.1 t.2.2.2.1 t.2.2.2.2 s).1) db

/-! ## Operation sequences and reachability -/

/-- One externally triggered booking operation, with its ambient randomness
resolved. -/
inductive Op
  | hold (fid : Nat) (email : String) (now rand_draw : ℚ)
  | payB (bid : Nat) (success : Bool) (draw : Fin 6 → Fin 36)
  | cancelC (code : String)

/-- Apply one operation to the state; a rejected request leaves the state
unchanged (the transaction never started or rolled back). -/
def applyOp (db : DB) : Op → DB
  | .hold fid email now r =>
      match start_booking db fid email now r with
      | .ok p => p.1
      | .error _ => db
  | .payB bid s d =>
      match confirm_payment db bid s d with
      | .ok db2 => db2
      | .error _ => db
  | .cancelC c =>
      match cancel_booking db c with
      | .ok db2 => db2
      | .error _ => db

/-- Run a sequence of hold/pay/cancel operations. -/
def runOps (db : DB) (ops : List Op) : DB := ops.foldl applyOp db

/-- The seat deltas `random.choice([-3, -2, -1, 0, 1, 2])` can produce. -/
def validChange (c : Int) : Prop :=
  c = -3 ∨ c = -2 ∨ c = -1 ∨ c = 0 ∨ c = 1 ∨ c = 2

/-- One step of the full system: a user-triggered booking operation, or one
successful market-simulator tick (with its random seat deltas drawn from the
simulator's actual choice list). -/
inductive MStep : DB → DB → Prop
  | user (op : Op) (s : DB) : MStep s (applyOp s op)
  | sim (changes : Nat → Int) (demands : Nat → ℚ) (now rand_draw : ℚ) (s : DB)
      (h : ∀ i, validChange (changes i)) :
      MStep s (simulate_market_tick none changes demands now rand_draw s).1

/-- Reachability of one database state from another under booking operations
and simulator ticks. -/
def MReachable (s t : DB) : Prop := Relation.ReflTransGen MStep s t

/-- A fresh initial state: no bookings yet, every flight full
(`seats_available = total_seats`), nonnegative capacities, distinct flight
ids. -/
def GoodInit (db : DB) : Prop :=
  db.bookings = [] ∧ (db.flights.map Flight.flight_id).Nodup ∧
    ∀ f ∈ db.flights, f.seats_available = f.total_seats ∧ 0 ≤ f.total_seats

/-- Bookings of a flight currently holding a seat: status PENDING or
CONFIRMED. -/
def isActive (fid : Nat) (b : Booking) : Bool :=
  b.flight_id == fid && (b.status == .PENDING || b.status == .CONFIRMED)

/-- The number of PENDING-or-CONFIRMED bookings of a flight. -/
def activeCount (db : DB) (fid : Nat) : Nat :=
  (db.bookings.filter (isActive fid)).length

/-- Sequentially serve `n` seat-hold requests for one flight, collecting the
endpoint results; under the `FOR UPDATE` flight lock, any interleaving of `n`
concurrent `POST /bookings/start` calls executes as such a serial order. -/
def runHolds (fid : Nat) (email : String) (now rand_draw : ℚ) :
    Nat → DB → List (Except ApiError Booking) × DB
  | 0, db => ([], db)
  | n + 1, db =>
      match start_booking db fid email now rand_draw with
      | .ok p =>
          let rest := runHolds fid email now rand_draw n p.1
          (.ok p.2 :: rest.1, rest.2)
      | .error e =>
          let rest := runHolds fid email now rand_draw n db
          (.error e :: rest.1, rest.2)

/-- Bool test: the hold was served. -/
def isOkResult (x : Except ApiError Booking) : Bool :=
  match x with
  | .ok _ => true
  | .error _ => false

/-- Bool test: the hold was rejected with `NoSeatsAvailable` (HTTP 409). -/
def isNoSeats (x : Except ApiError Booking) : Bool :=
  match x with
  | .error .NoSeatsAvailable => true
  | _ => false

/-- Every flight's seat count is within the ledger bounds. -/
def SeatBounds (db : DB) : Prop :=
  ∀ f ∈ db.flights, 0 ≤ f.seats_available ∧ f.seats_available ≤ f.total_seats

/-- The ledger equation: each flight's free seats are its capacity minus its
PENDING-or-CONFIRMED bookings. -/
def LedgerEq (db : DB) : Prop :=
  ∀ f ∈ db.flights,
    f.seats_available = f.total_seats - (activeCount db f.flight_id : Int)

/-- Key uniqueness and freshness of the AUTO_INCREMENT counter. -/
def WFIds (db : DB) : Prop :=
  (db.flights.map Flight.flight_id).Nodup ∧
  (db.bookings.map Booking.booking_id).Nodup ∧
  ∀ b ∈ db.bookings, b.booking_id < db.next_booking_id

/-- The inductive invariant of the booking workflow. -/
def Inv (db : DB) : Prop :=
  WFIds db ∧ (∀ f ∈ db.flights, 0 ≤ f.seats_available) ∧ LedgerEq db

/-- Confirmation-code discipline: a CONFIRMED booking has a code, a PENDING
one does not. -/
def PnrOK (db : DB) : Prop :=
  ∀ b ∈ db.bookings,
    (b.status = .CONFIRMED → b.pnr ≠ none) ∧ (b.status = .PENDING → b.pnr = none)

/-! ## Concrete states for counterexamples and witnesses -/

/-- A one-flight fresh state: 5 of 5 seats free. -/
def cex1_init : DB :=
  ⟨[⟨1, 1000, 5, 5, 0⟩], [], [], [], 1, 1⟩

/-- After one hold: 4 of 5 seats free, one PENDING booking. -/
def cex1_s1 : DB := applyOp cex1_init (.hold 1 "a@b.c" 0 0)

/-- After a simulator tick that drew `change = +1`: back to 5 of 5 free, the
PENDING booking still open. -/
def cex1_s2 : DB :=
  (simulate_market_tick none (fun _ => 1) (fun _ => 0) 0 0 cex1_s1).1

/-- After cancelling the still-open booking: 6 of 5 seats. -/
def cex1_s3 : DB := applyOp cex1_s2 (.cancelC "1")

/-- A one-flight, one-seat fresh state. -/
def cex7_init : DB :=
  ⟨[⟨1, 100, 1, 1, 0⟩], [], [], [], 1, 1⟩

/-- A fixed PNR draw: all six choices pick index 0 (letter A). -/
def drawA : Fin 6 → Fin 36 := fun _ => 0

/-- Hold the seat, pay successfully, then cancel the confirmed booking by its
raw id. -/
def cex7_ops : List Op := [.hold 1 "a@b.c" 0 0, .payB 1 true drawA, .cancelC "1"]

/-- Two flights, each with 5 of 10 seats free. -/
def cex10_db : DB :=
  ⟨[⟨1, 100, 5, 10, 0⟩, ⟨2, 100, 5, 10, 0⟩], [], [], [], 1, 1⟩

/-- One fresh flight with 9 of 9 seats free, used by witnesses. -/
def wit_db : DB :=
  ⟨[⟨3, 800, 9, 9, 0⟩], [], [], [], 1, 1⟩

/-- A two-seat flight for the hold-contention witness. -/
def wit3_db : DB :=
  ⟨[⟨4, 900, 2, 2, 0⟩], [], [], [], 1, 1⟩

/-! ## List helper lemmas -/

theorem find?_map_key {α : Type} (u : α → α) (p : α → Bool) (l : List α)
    (h : ∀ x, p (u x) = p x) :
    (l.map u).find? p = (l.find? p).map u := by
  induction l with
  | nil => rfl
  | cons a t ih =>
      cases hpa : p a with
      | true =>
          rw [List.map_cons, List.find?_cons_of_pos _ (by rw [h a]; exact hpa),
              List.find?_cons_of_pos _ hpa]
          rfl
      | false =>
          rw [List.map_cons, List.find?_cons_of_neg _ (by rw [h a]; simp [hpa]),
              List.find?_cons_of_neg _ (by simp [hpa])]
          exact ih

theorem length_filter_map_congr {α : Type} {p : α → Bool} (u : α → α) (l : List α)
    (h : ∀ x ∈ l, p (u x) = p x) :
    ((l.map u).filter p).length = (l.filter p).length := by
  induction l with
  | nil => rfl
  | cons a t ih =>
      have ht := ih (fun x hx => h x (List.mem_cons_of_mem a hx))
      simp only [List.map_cons, List.filter_cons, h a (List.mem_cons_self a t)]
      cases p a <;> simp [ht]

theorem length_filter_splice {α : Type} (p : α → Bool) (l1 l2 : List α) (x : α) :
    ((l1 ++ x :: l2).filter p).length
      = ((l1.filter p).length + (l2.filter p).length) + (if p x then 1 else 0) := by
  simp only [List.filter_append, List.filter_cons, List.length_append]
  cases p x
  · simp
  · simp
    omega

theorem split_of_mem_nodup_keys {α : Type} (key : α → Nat) {l : List α} {b : α}
    (hn : (l.map key).Nodup) (hb : b ∈ l) :
    ∃ l1 l2, l = l1 ++ b :: l2 ∧ ∀ x ∈ l1 ++ l2, key x ≠ key b := by
  obtain ⟨l1, l2, rfl⟩ := List.append_of_mem hb
  refine ⟨l1, l2, rfl, fun x hx hk => ?_⟩
  rw [show (l1 ++ b :: l2).map key = l1.map key ++ key b :: l2.map key by simp] at hn
  have h2 := List.nodup_middle.mp hn
  rw [List.nodup_cons] at h2
  apply h2.1
  have : key b ∈ (l1 ++ l2).map key := List.mem_map.mpr ⟨x, hx, hk⟩
  rwa [List.map_append] at this

theorem map_update_splice {α : Type} (key : α → Nat) (u : α → α)
    (l1 l2 : List α) (b : α)
    (hfresh : ∀ x ∈ l1 ++ l2, key x ≠ key b) :
    (l1 ++ b :: l2).map (fun x => if key x == key b then u x else x)
      = l1 ++ u b :: l2 := by
  rw [List.map_append, List.map_cons, if_pos (by simp)]
  have h1 : l1.map (fun x => if key x == key b then u x else x) = l1 := by
    conv_rhs => rw [← List.map_id l1]
    exact List.map_congr_left (fun x hx => by
      rw [if_neg (by simp [hfresh x (List.mem_append_left l2 hx)])]; rfl)
  have h2 : l2.map (fun x => if key x == key b then u x else x) = l2 := by
    conv_rhs => rw [← List.map_id l2]
    exact List.map_congr_left (fun x hx => by
      rw [if_neg (by simp [hfresh x (List.mem_append_right l1 hx)])]; rfl)
  rw [h1, h2]

/-! ## State-projection lemmas -/

theorem resolvePassenger_flights (db : DB) (em : String) :
    (resolvePassenger db em).2.flights = db.flights := by
  unfold resolvePassenger
  cases db.passengers.find? (fun p => p.email == em) <;> rfl

theorem resolvePassenger_bookings (db : DB) (em : String) :
    (resolvePassenger db em).2.bookings = db.bookings := by
  unfold resolvePassenger
  cases db.passengers.find? (fun p => p.email == em) <;> rfl

theorem resolvePassenger_nextB (db : DB) (em : String) :
    (resolvePassenger db em).2.next_booking_id = db.next_booking_id := by
  unfold resolvePassenger
  cases db.passengers.find? (fun p => p.email == em) <;> rfl

theorem updateBooking_flights (db : DB) (bid : Nat) (g : Booking → Booking) :
    (updateBooking db bid g).flights = db.flights := rfl

theorem updateFlightSeats_bookings (db : DB) (fid : Nat) (d : Int) :
    (updateFlightSeats db fid d).bookings = db.bookings := rfl

theorem updateFlightSeats_nextB (db : DB) (fid : Nat) (d : Int) :
    (updateFlightSeats db fid d).next_booking_id = db.next_booking_id := rfl

theorem updateBooking_nextB (db : DB) (bid : Nat) (g : Booking → Booking) :
    (updateBooking db bid g).next_booking_id = db.next_booking_id := rfl

/-! ## Lookup/update commutation lemmas -/

theorem findFlight_updateFlightSeats_self (db : DB) (fid : Nat) (d : Int) (f0 : Flight)
    (hb : findFlight db fid = some f0) :
    findFlight (updateFlightSeats db fid d) fid
      = some { f0 with seats_available := f0.seats_available + d } := by
  unfold findFlight at hb
  have hp := List.find?_some hb
  simp only [beq_iff_eq] at hp
  unfold findFlight updateFlightSeats
  rw [find?_map_key _ _ _ (fun x => by
    by_cases hx : x.flight_id = fid <;> simp [hx])]
  rw [hb]
  simp [hp]

theorem findFlight_updateFlightSeats_other (db : DB) (fid fid2 : Nat) (d : Int)
    (hne : fid2 ≠ fid) :
    findFlight (updateFlightSeats db fid d) fid2 = findFlight db fid2 := by
  unfold findFlight updateFlightSeats
  rw [find?_map_key _ _ _ (fun x => by
    by_cases hx : x.flight_id = fid <;> simp [hx])]
  cases hfb : db.flights.find? (fun f => f.flight_id == fid2) with
  | none => rfl
  | some g =>
      have hg := List.find?_some hfb
      simp only [beq_iff_eq] at hg
      simp only [Option.map_some']
      rw [if_neg (by simp [hg, hne])]

theorem findBooking_updateFlightSeats (db : DB) (fid : Nat) (d : Int) (bid : Nat) :
    findBooking (updateFlightSeats db fid d) bid = findBooking db bid := rfl

theorem findFlight_updateBooking (db : DB) (bid : Nat) (g : Booking → Booking) (fid : Nat) :
    findFlight (updateBooking db bid g) fid = findFlight db fid := rfl

theorem findBooking_updateBooking_self (db : DB) (bid : Nat) (g : Booking → Booking)
    (hg : ∀ x, (g x).booking_id = x.booking_id) (b : Booking)
    (hb : findBooking db bid = some b) :
    findBooking (updateBooking db bid g) bid = some (g b) := by
  unfold findBooking at hb
  have hp := List.find?_some hb
  simp only [beq_iff_eq] at hp
  unfold findBooking updateBooking
  rw [find?_map_key _ _ _ (fun x => by
    by_cases hx : x.booking_id = bid <;> simp [hx, hg])]
  rw [hb]
  simp [hp]

theorem findBooking_updateBooking_other (db : DB) (bid : Nat) (g : Booking → Booking)
    (hg : ∀ x, (g x).booking_id = x.booking_id) (bid2 : Nat) (hne : bid2 ≠ bid) :
    findBooking (updateBooking db bid g) bid2 = findBooking db bid2 := by
  unfold findBooking updateBooking
  rw [find?_map_key _ _ _ (fun x => by
    by_cases hx : x.booking_id = bid <;> simp [hx, hg])]
  cases hfb : db.bookings.find? (fun x => x.booking_id == bid2) with
  | none => rfl
  | some x =>
      have hx := List.find?_some hfb
      simp only [beq_iff_eq] at hx
      simp only [Option.map_some']
      rw [if_neg (by simp [hx, hne])]

theorem find_cancel_updateBooking (db : DB) (bid : Nat) (g : Booking → Booking)
    (hgid : ∀ x, (g x).booking_id = x.booking_id)
    (hgpnr : ∀ x, (g x).pnr = x.pnr) (code : String) :
    (updateBooking db bid g).bookings.find? (cancelMatches code)
      = (db.bookings.find? (cancelMatches code)).map
          (fun x => if x.booking_id == bid then g x else x) :=
  find?_map_key _ _ _ (fun x => by
    by_cases hx : x.booking_id = bid
    · simp [cancelMatches, hx, hgid, hgpnr]
    · simp [hx])

/-! ## Invariant preservation -/

theorem isActive_of_open (q : Nat) (b : Booking)
    (h : b.status = .PENDING ∨ b.status = .CONFIRMED) :
    isActive q b = (b.flight_id == q) := by
  unfold isActive
  cases h with
  | inl h2 => rw [h2]; simp
  | inr h2 => rw [h2]; simp

theorem isActive_of_cancelled (q : Nat) (b : Booking) (h : b.status = .CANCELLED) :
    isActive q b = false := by
  unfold isActive
  rw [h]
  simp

theorem inv_keepActive (db : DB) (b : Booking) (g : Booking → Booking) (h : Inv db)
    (hmem : b ∈ db.bookings)
    (hid : (g b).booking_id = b.booking_id)
    (hact : ∀ q, isActive q (g b) = isActive q b) :
    Inv (updateBooking db b.booking_id g) := by
  obtain ⟨⟨hfn, hbn, hbd⟩, hpos, hled⟩ := h
  have hxb : ∀ x ∈ db.bookings, (x.booking_id == b.booking_id) = true → x = b := by
    intro x hx hbeq
    exact List.inj_on_of_nodup_map hbn hx hmem (by simpa using hbeq)
  have hu : ∀ x ∈ db.bookings,
      (if x.booking_id == b.booking_id then g x else x).booking_id = x.booking_id := by
    intro x hx
    by_cases hbeq : (x.booking_id == b.booking_id) = true
    · have hex := hxb x hx hbeq
      rw [if_pos hbeq, hex]
      exact hid
    · rw [if_neg hbeq]
  have hids : (updateBooking db b.booking_id g).bookings.map Booking.booking_id
      = db.bookings.map Booking.booking_id := by
    show (db.bookings.map _).map Booking.booking_id = _
    rw [List.map_map]
    exact List.map_congr_left (fun x hx => hu x hx)
  refine ⟨⟨hfn, ?_, ?_⟩, hpos, ?_⟩
  · rw [hids]
    exact hbn
  · intro y hy
    obtain ⟨x, hx, rfl⟩ := List.mem_map.mp hy
    rw [updateBooking_nextB, hu x hx]
    exact hbd x hx
  · intro f hf
    rw [show (updateBooking db b.booking_id g).flights = db.flights from rfl] at hf
    have hcount : activeCount (updateBooking db b.booking_id g) f.flight_id
        = activeCount db f.flight_id := by
      unfold activeCount
      apply length_filter_map_congr
      intro x hx
      by_cases hbeq : (x.booking_id == b.booking_id) = true
      · have hex := hxb x hx hbeq
        rw [if_pos hbeq, hex]
        exact hact f.flight_id
      · rw [if_neg hbeq]
    rw [hcount]
    exact hled f hf

theorem updateFlightSeats_ids (db : DB) (fid : Nat) (d : Int) :
    (updateFlightSeats db fid d).flights.map Flight.flight_id
      = db.flights.map Flight.flight_id := by
  unfold updateFlightSeats
  rw [List.map_map]
  exact List.map_congr_left (fun f _ => by
    by_cases hc : (f.flight_id == fid) = true
    · simp only [Function.comp_apply, if_pos hc]
    · simp only [Function.comp_apply, if_neg hc])

theorem inv_release (db : DB) (b : Booking) (g : Booking → Booking) (h : Inv db)
    (hmem : b ∈ db.bookings)
    (hid : (g b).booking_id = b.booking_id)
    (hback : b.status = .PENDING ∨ b.status = .CONFIRMED)
    (hgst : (g b).status = .CANCELLED) :
    Inv (updateFlightSeats (updateBooking db b.booking_id g) b.flight_id 1) := by
  obtain ⟨⟨hfn, hbn, hbd⟩, hpos, hled⟩ := h
  obtain ⟨l1, l2, hsplit, hfresh⟩ := split_of_mem_nodup_keys Booking.booking_id hbn hmem
  have hupd : updateBooking db b.booking_id g = { db with bookings := l1 ++ g b :: l2 } := by
    unfold updateBooking
    rw [hsplit, map_update_splice Booking.booking_id g l1 l2 b hfresh]
  rw [hupd]
  have hmemdb : ∀ x ∈ l1 ++ l2, x ∈ db.bookings := by
    intro x hx
    rw [hsplit]
    rcases List.mem_append.mp hx with h1 | h2
    · exact List.mem_append_left _ h1
    · exact List.mem_append_right _ (List.mem_cons_of_mem b h2)
  have hactS : ∀ q, activeCount
        (updateFlightSeats { db with bookings := l1 ++ g b :: l2 } b.flight_id 1) q
      = ((l1.filter (isActive q)).length + (l2.filter (isActive q)).length) := by
    intro q
    show ((l1 ++ g b :: l2).filter (isActive q)).length = _
    rw [length_filter_splice, isActive_of_cancelled q (g b) hgst]
    simp
  have hactD : ∀ q, activeCount db q
      = ((l1.filter (isActive q)).length + (l2.filter (isActive q)).length)
        + (if b.flight_id = q then 1 else 0) := by
    intro q
    unfold activeCount
    rw [hsplit, length_filter_splice, isActive_of_open q b hback]
    by_cases hq : b.flight_id = q
    · simp [hq]
    · simp [hq]
  refine ⟨⟨?_, ?_, ?_⟩, ?_, ?_⟩
  · show ((updateFlightSeats { db with bookings := l1 ++ g b :: l2 } b.flight_id 1).flights.map
        Flight.flight_id).Nodup
    rw [updateFlightSeats_ids]
    exact hfn
  · show ((l1 ++ g b :: l2).map Booking.booking_id).Nodup
    rw [show (l1 ++ g b :: l2).map Booking.booking_id
        = (l1 ++ b :: l2).map Booking.booking_id by simp [hid]]
    rw [← hsplit]
    exact hbn
  · intro x hx
    have hx2 : x ∈ l1 ++ g b :: l2 := hx
    show x.booking_id < db.next_booking_id
    rcases List.mem_append.mp hx2 with h1 | h2
    · exact hbd x (hmemdb x (List.mem_append_left _ h1))
    · rcases List.mem_cons.mp h2 with h3 | h4
      · rw [h3, hid]
        exact hbd b hmem
      · exact hbd x (hmemdb x (List.mem_append_right _ h4))
  · intro f hf
    have hf2 : f ∈ db.flights.map (fun x =>
        if x.flight_id == b.flight_id
        then { x with seats_available := x.seats_available + 1 } else x) := hf
    obtain ⟨f0, hf0, rfl⟩ := List.mem_map.mp hf2
    by_cases hc : (f0.flight_id == b.flight_id) = true
    · rw [if_pos hc]
      show 0 ≤ f0.seats_available + 1
      have := hpos f0 hf0
      omega
    · rw [if_neg hc]
      exact hpos f0 hf0
  · intro f hf
    have hf2 : f ∈ db.flights.map (fun x =>
        if x.flight_id == b.flight_id
        then { x with seats_available := x.seats_available + 1 } else x) := hf
    obtain ⟨f0, hf0, rfl⟩ := List.mem_map.mp hf2
    have hledf := hled f0 hf0
    by_cases hc : (f0.flight_id == b.flight_id) = true
    · rw [if_pos hc]
      show f0.seats_available + 1 = f0.total_seats
        - (activeCount (updateFlightSeats { db with bookings := l1 ++ g b :: l2 }
            b.flight_id 1) f0.flight_id : Int)
      have hq : b.flight_id = f0.flight_id := (beq_iff_eq.mp hc).symm
      have hS := hactS f0.flight_id
      have hD := hactD f0.flight_id
      rw [if_pos hq] at hD
      omega
    · rw [if_neg hc]
      show f0.seats_available = f0.total_seats
        - (activeCount (updateFlightSeats { db with bookings := l1 ++ g b :: l2 }
            b.flight_id 1) f0.flight_id : Int)
      have hq : b.flight_id ≠ f0.flight_id := fun he => hc (by simp [he])
      have hS := hactS f0.flight_id
      have hD := hactD f0.flight_id
      rw [if_neg hq] at hD
      omega

theorem inv_hold_core (db : DB) (fid : Nat) (dbP : DB) (pid : Nat) (sno : String)
    (price : ℚ) (f0 : Flight) (h : Inv db)
    (hff : findFlight db fid = some f0) (hs : 0 < f0.seats_available)
    (hPb : dbP.bookings = db.bookings) (hPf : dbP.flights = db.flights) :
    Inv (updateFlightSeats
      { dbP with
          bookings := dbP.bookings ++
            [⟨db.next_booking_id, fid, pid, sno, .PENDING, .PENDING, none, price⟩],
          next_booking_id := db.next_booking_id + 1 } fid (-1)) := by
  obtain ⟨⟨hfn, hbn, hbd⟩, hpos, hled⟩ := h
  have hf0mem : f0 ∈ db.flights := by
    unfold findFlight at hff
    exact List.mem_of_find?_eq_some hff
  have hf0id : f0.flight_id = fid := by
    unfold findFlight at hff
    have := List.find?_some hff
    simpa using this
  have hact : ∀ q,
      activeCount (updateFlightSeats
        { dbP with
            bookings := dbP.bookings ++
              [⟨db.next_booking_id, fid, pid, sno, .PENDING, .PENDING, none, price⟩],
            next_booking_id := db.next_booking_id + 1 } fid (-1)) q
      = activeCount db q + (if fid = q then 1 else 0) := by
    intro q
    show ((dbP.bookings ++
        (⟨db.next_booking_id, fid, pid, sno, .PENDING, .PENDING, none, price⟩ : Booking)
          :: []).filter (isActive q)).length = _
    rw [hPb, length_filter_splice]
    have hnew : isActive q (⟨db.next_booking_id, fid, pid, sno,
        .PENDING, .PENDING, none, price⟩ : Booking) = (fid == q) := by
      unfold isActive
      simp
    rw [hnew]
    unfold activeCount
    by_cases hq : fid = q
    · simp [hq]
    · simp [hq]
  refine ⟨⟨?_, ?_, ?_⟩, ?_, ?_⟩
  · show ((updateFlightSeats _ fid (-1)).flights.map Flight.flight_id).Nodup
    rw [updateFlightSeats_ids]
    show ((dbP.flights).map Flight.flight_id).Nodup
    rw [hPf]
    exact hfn
  · show ((dbP.bookings ++
      [(⟨db.next_booking_id, fid, pid, sno, .PENDING, .PENDING, none, price⟩ : Booking)]).map
        Booking.booking_id).Nodup
    rw [hPb, List.map_append, List.nodup_append]
    refine ⟨hbn, by simp, ?_⟩
    intro a ha ha2
    simp only [List.map_cons, List.map_nil, List.mem_singleton] at ha2
    obtain ⟨x, hx, hxa⟩ := List.mem_map.mp ha
    have := hbd x hx
    omega
  · intro x hx
    have hx2 : x ∈ dbP.bookings ++
        [(⟨db.next_booking_id, fid, pid, sno, .PENDING, .PENDING, none, price⟩ : Booking)] := hx
    show x.booking_id < db.next_booking_id + 1
    rcases List.mem_append.mp hx2 with h1 | h2
    · rw [hPb] at h1
      have := hbd x h1
      omega
    · rw [List.mem_singleton] at h2
      rw [h2]
      show db.next_booking_id < db.next_booking_id + 1
      omega
  · intro f hf
    have hf2 : f ∈ db.flights.map (fun x =>
        if x.flight_id == fid
        then { x with seats_available := x.seats_available + (-1) } else x) := by
      have : f ∈ dbP.flights.map (fun x =>
          if x.flight_id == fid
          then { x with seats_available := x.seats_available + (-1) } else x) := hf
      rwa [hPf] at this
    obtain ⟨x0, hx0, rfl⟩ := List.mem_map.mp hf2
    by_cases hc : (x0.flight_id == fid) = true
    · rw [if_pos hc]
      have hxf : x0 = f0 :=
        List.inj_on_of_nodup_map hfn hx0 hf0mem (by rw [hf0id]; simpa using hc)
      show 0 ≤ x0.seats_available + (-1)
      rw [hxf]
      omega
    · rw [if_neg hc]
      exact hpos x0 hx0
  · intro f hf
    have hf2 : f ∈ db.flights.map (fun x =>
        if x.flight_id == fid
        then { x with seats_available := x.seats_available + (-1) } else x) := by
      have : f ∈ dbP.flights.map (fun x =>
          if x.flight_id == fid
          then { x with seats_available := x.seats_available + (-1) } else x) := hf
      rwa [hPf] at this
    obtain ⟨x0, hx0, rfl⟩ := List.mem_map.mp hf2
    have hledx := hled x0 hx0
    by_cases hc : (x0.flight_id == fid) = true
    · rw [if_pos hc]
      have hxq : x0.flight_id = fid := by simpa using hc
      show x0.seats_available + (-1) = x0.total_seats - _
      have hA := hact x0.flight_id
      rw [if_pos hxq.symm] at hA
      rw [hxq] at hA ⊢
      rw [hA]
      rw [hxq] at hledx
      omega
    · rw [if_neg hc]
      have hxq : fid ≠ x0.flight_id := fun he => hc (by simp [he])
      show x0.seats_available = x0.total_seats - _
      have hA := hact x0.flight_id
      rw [if_neg hxq] at hA
      rw [hA]
      omega

theorem inv_hold (db : DB) (fid : Nat) (em : String) (now r : ℚ) (h : Inv db) :
    Inv (applyOp db (.hold fid em now r)) := by
  show Inv (match start_booking db fid em now r with
    | .ok p => p.1
    | .error _ => db)
  cases hf : start_booking db fid em now r with
  | error e => exact h
  | ok p =>
      unfold start_booking at hf
      split at hf
      · exact absurd hf (by simp)
      · rename_i f0 hff
        split at hf
        · exact absurd hf (by simp)
        · rename_i hs
          have h2 := Except.ok.inj hf
          rw [← h2]
          exact inv_hold_core db fid (resolvePassenger db em).2 (resolvePassenger db em).1
            (mkSeatNo f0.total_seats f0.seats_available)
            (calculate_dynamic_price f0.base_fare f0.seats_available f0.total_seats
              f0.departure_time none now r) f0 h hff (by omega)
            (resolvePassenger_bookings db em) (resolvePassenger_flights db em)

theorem inv_pay (db : DB) (bid : Nat) (s : Bool) (d : Fin 6 → Fin 36) (h : Inv db) :
    Inv (applyOp db (.payB bid s d)) := by
  show Inv (match confirm_payment db bid s d with
    | .ok db2 => db2
    | .error _ => db)
  cases hf : confirm_payment db bid s d with
  | error e => exact h
  | ok db2 =>
      unfold confirm_payment at hf
      split at hf
      · exact absurd hf (by simp)
      · rename_i b hb
        split at hf
        · exact absurd hf (by simp)
        · rename_i hst
          push_neg at hst
          have hbid : b.booking_id = bid := by
            unfold findBooking at hb
            have := List.find?_some hb
            simpa using this
          have hbmem : b ∈ db.bookings := by
            unfold findBooking at hb
            exact List.mem_of_find?_eq_some hb
          split at hf
          · have h2 := Except.ok.inj hf
            rw [← h2, ← hbid]
            exact inv_keepActive db b _ h hbmem rfl (fun q => by
              unfold isActive
              rw [hst]
              simp)
          · have h2 := Except.ok.inj hf
            rw [← h2, ← hbid]
            exact inv_release db b _ h hbmem rfl (Or.inl hst) rfl

theorem inv_cancel (db : DB) (code : String) (h : Inv db) :
    Inv (applyOp db (.cancelC code)) := by
  show Inv (match cancel_booking db code with
    | .ok db2 => db2
    | .error _ => db)
  cases hf : cancel_booking db code with
  | error e => exact h
  | ok db2 =>
      unfold cancel_booking at hf
      split at hf
      · exact absurd hf (by simp)
      · rename_i b hb
        split at hf
        · exact absurd hf (by simp)
        · rename_i hst
          have h2 := Except.ok.inj hf
          rw [← h2]
          have hbmem : b ∈ db.bookings := List.mem_of_find?_eq_some hb
          have hback : b.status = .PENDING ∨ b.status = .CONFIRMED := by
            cases hq : b.status with
            | PENDING => exact Or.inl rfl
            | CONFIRMED => exact Or.inr rfl
            | CANCELLED => exact absurd hq hst
          exact inv_release db b _ h hbmem rfl hback rfl

theorem inv_applyOp (db : DB) (op : Op) (h : Inv db) : Inv (applyOp db op) := by
  cases op with
  | hold fid em now r => exact inv_hold db fid em now r h
  | payB bid s d => exact inv_pay db bid s d h
  | cancelC c => exact inv_cancel db c h

theorem inv_runOps (db : DB) (ops : List Op) (h : Inv db) : Inv (runOps db ops) := by
  induction ops generalizing db with
  | nil => exact h
  | cons op rest ih => exact ih (applyOp db op) (inv_applyOp db op h)

theorem goodInit_inv (db : DB) (h : GoodInit db) : Inv db := by
  obtain ⟨hb, hn, hf⟩ := h
  refine ⟨⟨hn, ?_, ?_⟩, ?_, ?_⟩
  · rw [hb]
    exact List.nodup_nil
  · intro x hx
    rw [hb] at hx
    exact absurd hx (List.not_mem_nil x)
  · intro f hf2
    have h3 := hf f hf2
    omega
  · intro f hf2
    have h3 := hf f hf2
    have hact : activeCount db f.flight_id = 0 := by
      unfold activeCount
      rw [hb]
      rfl
    rw [hact]
    omega

/-! ## Confirmation-code discipline preservation -/

theorem pnrok_hold (db : DB) (fid : Nat) (em : String) (now r : ℚ) (h : PnrOK db) :
    PnrOK (applyOp db (.hold fid em now r)) := by
  show PnrOK (match start_booking db fid em now r with
    | .ok p => p.1
    | .error _ => db)
  cases hf : start_booking db fid em now r with
  | error e => exact h
  | ok p =>
      unfold start_booking at hf
      split at hf
      · exact absurd hf (by simp)
      · rename_i f0 hff
        split at hf
        · exact absurd hf (by simp)
        · rename_i hs
          have h2 := Except.ok.inj hf
          rw [← h2]
          intro x hx
          have hx2 : x ∈ (resolvePassenger db em).2.bookings ++
              [(⟨db.next_booking_id, fid, (resolvePassenger db em).1,
                 mkSeatNo f0.total_seats f0.seats_available, .PENDING, .PENDING, none,
                 calculate_dynamic_price f0.base_fare f0.seats_available f0.total_seats
                   f0.departure_time none now r⟩ : Booking)] := hx
          rw [resolvePassenger_bookings] at hx2
          rcases List.mem_append.mp hx2 with h1 | h2b
          · exact h x h1
          · rw [List.mem_singleton] at h2b
            rw [h2b]
            exact ⟨fun hc => by simp at hc, fun _ => rfl⟩

theorem pnrok_pay (db : DB) (bid : Nat) (s : Bool) (d : Fin 6 → Fin 36) (h : PnrOK db) :
    PnrOK (applyOp db (.payB bid s d)) := by
  show PnrOK (match confirm_payment db bid s d with
    | .ok db2 => db2
    | .error _ => db)
  cases hf : confirm_payment db bid s d with
  | error e => exact h
  | ok db2 =>
      unfold confirm_payment at hf
      split at hf
      · exact absurd hf (by simp)
      · rename_i b hb
        split at hf
        · exact absurd hf (by simp)
        · rename_i hst
          split at hf
          · have h2 := Except.ok.inj hf
            rw [← h2]
            intro x hx
            have hx2 : x ∈ db.bookings.map (fun y =>
                if y.booking_id == bid
                then { y with
                        status := .CONFIRMED
                        pnr := some (generate_pnr d)
                        payment_status := .PAID }
                else y) := hx
            obtain ⟨y, hy, rfl⟩ := List.mem_map.mp hx2
            by_cases hc : (y.booking_id == bid) = true
            · rw [if_pos hc]
              exact ⟨fun _ => by simp, fun hp => by simp at hp⟩
            · rw [if_neg hc]
              exact h y hy
          · have h2 := Except.ok.inj hf
            rw [← h2]
            intro x hx
            have hx2 : x ∈ db.bookings.map (fun y =>
                if y.booking_id == bid
                then { y with
                        status := .CANCELLED
                        payment_status := .FAILED }
                else y) := hx
            obtain ⟨y, hy, rfl⟩ := List.mem_map.mp hx2
            by_cases hc : (y.booking_id == bid) = true
            · rw [if_pos hc]
              exact ⟨fun hcf => by simp at hcf, fun hp => by simp at hp⟩
            · rw [if_neg hc]
              exact h y hy

theorem pnrok_cancel (db : DB) (code : String) (h : PnrOK db) :
    PnrOK (applyOp db (.cancelC code)) := by
  show PnrOK (match cancel_booking db code with
    | .ok db2 => db2
    | .error _ => db)
  cases hf : cancel_booking db code with
  | error e => exact h
  | ok db2 =>
      unfold cancel_booking at hf
      split at hf
      · exact absurd hf (by simp)
      · rename_i b hb
        split at hf
        · exact absurd hf (by simp)
        · rename_i hst
          have h2 := Except.ok.inj hf
          rw [← h2]
          intro x hx
          have hx2 : x ∈ db.bookings.map (fun y =>
              if y.booking_id == b.booking_id
              then { y with status := .CANCELLED } else y) := hx
          obtain ⟨y, hy, rfl⟩ := List.mem_map.mp hx2
          by_cases hc : (y.booking_id == b.booking_id) = true
          · rw [if_pos hc]
            exact ⟨fun hcf => by simp at hcf, fun hp => by simp at hp⟩
          · rw [if_neg hc]
            exact h y hy

theorem pnrok_applyOp (db : DB) (op : Op) (h : PnrOK db) : PnrOK (applyOp db op) := by
  cases op with
  | hold fid em now r => exact pnrok_hold db fid em now r h
  | payB bid s d => exact pnrok_pay db bid s d h
  | cancelC c => exact pnrok_cancel db c h

theorem tickGo_none_bookings (changes : Nat → Int) (demands : Nat → ℚ) (now r : ℚ) :
    ∀ (fls : List Flight) (i : Nat) (work orig : DB),
      (tickGo none i fls changes demands now r work orig).1.bookings = work.bookings := by
  intro fls
  induction fls with
  | nil => intro i work orig; rfl
  | cons f rest ih =>
      intro i work orig
      show (tickGo none (i + 1) rest changes demands now r
        (simUpdateFlight f (changes i) (demands i) now r work) orig).1.bookings = _
      rw [ih (i + 1) (simUpdateFlight f (changes i) (demands i) now r work) orig]
      rfl

theorem mstep_pnrok {s t : DB} (hst : MStep s t) (h : PnrOK s) : PnrOK t := by
  cases hst with
  | user op s => exact pnrok_applyOp s op h
  | sim changes demands now r s hvc =>
      intro x hx
      have hb : (simulate_market_tick none changes demands now r s).1.bookings
          = s.bookings := tickGo_none_bookings changes demands now r s.flights 0 s s
      rw [hb] at hx
      exact h x hx

theorem reach_pnrok {s t : DB} (hr : MReachable s t) (h : PnrOK s) : PnrOK t := by
  have hr2 : Relation.ReflTransGen MStep s t := hr
  clear hr
  induction hr2 with
  | refl => exact h
  | tail h1 h2 ih => exact mstep_pnrok h2 ih

/-! ## Serialized hold contention -/

theorem countP_replicate {α : Type} (p : α → Bool) (n : Nat) (a : α) :
    (List.replicate n a).countP p = if p a then n else 0 := by
  induction n with
  | zero => simp
  | succ n ih =>
      rw [List.replicate_succ, List.countP_cons, ih]
      cases hpa : p a
      · simp
      · simp

theorem start_booking_zero (db : DB) (fid : Nat) (em : String) (now r : ℚ) (f0 : Flight)
    (hff : findFlight db fid = some f0) (hs : f0.seats_available ≤ 0) :
    start_booking db fid em now r = .error .NoSeatsAvailable := by
  unfold start_booking
  rw [hff]
  simp [hs]

theorem start_booking_pos (db : DB) (fid : Nat) (em : String) (now r : ℚ) (f0 : Flight)
    (hff : findFlight db fid = some f0) (hs : ¬ f0.seats_available ≤ 0) :
    start_booking db fid em now r = .ok
      (updateFlightSeats
        { (resolvePassenger db em).2 with
            bookings := (resolvePassenger db em).2.bookings ++
              [⟨db.next_booking_id, fid, (resolvePassenger db em).1,
                mkSeatNo f0.total_seats f0.seats_available, .PENDING, .PENDING, none,
                calculate_dynamic_price f0.base_fare f0.seats_available f0.total_seats
                  f0.departure_time none now r⟩],
            next_booking_id := db.next_booking_id + 1 } fid (-1),
       ⟨db.next_booking_id, fid, (resolvePassenger db em).1,
         mkSeatNo f0.total_seats f0.seats_available, .PENDING, .PENDING, none,
         calculate_dynamic_price f0.base_fare f0.seats_available f0.total_seats
           f0.departure_time none now r⟩) := by
  unfold start_booking
  rw [hff]
  simp [hs]

theorem runHolds_succ_ok (fid : Nat) (em : String) (now r : ℚ) (n : Nat) (db : DB)
    (p : DB × Booking) (hsb : start_booking db fid em now r = .ok p) :
    runHolds fid em now r (n + 1) db
      = (.ok p.2 :: (runHolds fid em now r n p.1).1, (runHolds fid em now r n p.1).2) := by
  show (match start_booking db fid em now r with
    | .ok p2 => ((Except.ok p2.2 : Except ApiError Booking) :: (runHolds fid em now r n p2.1).1,
        (runHolds fid em now r n p2.1).2)
    | .error e => ((Except.error e : Except ApiError Booking) :: (runHolds fid em now r n db).1,
        (runHolds fid em now r n db).2)) = _
  rw [hsb]

theorem runHolds_succ_err (fid : Nat) (em : String) (now r : ℚ) (n : Nat) (db : DB)
    (e : ApiError) (hsb : start_booking db fid em now r = .error e) :
    runHolds fid em now r (n + 1) db
      = (.error e :: (runHolds fid em now r n db).1, (runHolds fid em now r n db).2) := by
  show (match start_booking db fid em now r with
    | .ok p2 => ((Except.ok p2.2 : Except ApiError Booking) :: (runHolds fid em now r n p2.1).1,
        (runHolds fid em now r n p2.1).2)
    | .error e2 => ((Except.error e2 : Except ApiError Booking) :: (runHolds fid em now r n db).1,
        (runHolds fid em now r n db).2)) = _
  rw [hsb]

theorem runHolds_zero_seats (fid : Nat) (em : String) (now r : ℚ) :
    ∀ (n : Nat) (db : DB) (f0 : Flight), findFlight db fid = some f0 →
      f0.seats_available = 0 →
      runHolds fid em now r n db = (List.replicate n (.error .NoSeatsAvailable), db) := by
  intro n
  induction n with
  | zero => intro db f0 hff hs; rfl
  | succ n ih =>
      intro db f0 hff hs
      rw [runHolds_succ_err fid em now r n db .NoSeatsAvailable
        (start_booking_zero db fid em now r f0 hff (by omega))]
      rw [ih db f0 hff hs]
      simp [List.replicate_succ]

theorem runHolds_spec (fid : Nat) (em : String) (now r : ℚ) :
    ∀ (n k : Nat) (db : DB) (f0 : Flight), findFlight db fid = some f0 →
      f0.seats_available = (k : Int) → k < n →
      ((runHolds fid em now r n db).1.countP isOkResult = k ∧
       (runHolds fid em now r n db).1.countP isNoSeats = n - k ∧
       findFlight (runHolds fid em now r n db).2 fid
         = some { f0 with seats_available := 0 }) := by
  intro n
  induction n with
  | zero => intro k db f0 hff hsk hkn; exact absurd hkn (Nat.not_lt_zero k)
  | succ n ih =>
      intro k db f0 hff hsk hkn
      cases k with
      | zero =>
          have hz : f0.seats_available = 0 := by simpa using hsk
          rw [runHolds_zero_seats fid em now r (n + 1) db f0 hff hz]
          refine ⟨?_, ?_, ?_⟩
          · rw [countP_replicate]
            simp [isOkResult]
          · rw [countP_replicate]
            simp [isNoSeats]
          · show findFlight db fid = some { f0 with seats_available := 0 }
            rw [hff, ← hz]
      | succ k2 =>
          have hpos2 : ¬ f0.seats_available ≤ 0 := by
            push_cast at hsk
            omega
          cases hsb : start_booking db fid em now r with
          | error e =>
              rw [start_booking_pos db fid em now r f0 hff hpos2] at hsb
              exact absurd hsb (by simp)
          | ok p =>
              have hok := start_booking_pos db fid em now r f0 hff hpos2
              rw [hsb] at hok
              have hp := Except.ok.inj hok
              have hfS : findFlight p.1 fid
                  = some { f0 with seats_available := f0.seats_available + (-1) } := by
                rw [hp]
                show findFlight (updateFlightSeats _ fid (-1)) fid = _
                apply findFlight_updateFlightSeats_self
                show ((resolvePassenger db em).2.flights.find?
                  (fun f => f.flight_id == fid)) = some f0
                rw [resolvePassenger_flights]
                exact hff
              have hseat1 : ({ f0 with seats_available := f0.seats_available + (-1) } :
                  Flight).seats_available = (k2 : Int) := by
                show f0.seats_available + (-1) = (k2 : Int)
                push_cast at hsk
                omega
              obtain ⟨ih1, ih2, ih3⟩ := ih k2 p.1
                { f0 with seats_available := f0.seats_available + (-1) } hfS hseat1 (by omega)
              rw [runHolds_succ_ok fid em now r n db p hsb]
              refine ⟨?_, ?_, ?_⟩
              · have hok2 : isOkResult (Except.ok p.2 : Except ApiError Booking) = true := rfl
                rw [List.countP_cons, ih1, hok2]
                simp
              · have hns : isNoSeats (Except.ok p.2 : Except ApiError Booking) = false := rfl
                rw [List.countP_cons, ih2, hns]
                simp only [Bool.false_eq_true, if_false, add_zero]
                omega
              · exact ih3

/-! ## Simulator tick failure semantics -/

theorem tickGo_fail (changes : Nat → Int) (demands : Nat → ℚ) (now r : ℚ) :
    ∀ (fls : List Flight) (i j : Nat) (work orig : DB), j < fls.length →
      tickGo (some (i + j)) i fls changes demands now r work orig = (orig, true) := by
  intro fls
  induction fls with
  | nil =>
      intro i j work orig hj
      exact absurd hj (Nat.not_lt_zero j)
  | cons f rest ih =>
      intro i j work orig hj
      cases j with
      | zero =>
          show (if (some (i + 0) : Option Nat) = some i then ((orig, true) : DB × Bool)
            else tickGo (some (i + 0)) (i + 1) rest changes demands now r
              (simUpdateFlight f (changes i) (demands i) now r work) orig) = (orig, true)
          rw [if_pos (by simp)]
      | succ j2 =>
          show (if (some (i + (j2 + 1)) : Option Nat) = some i then ((orig, true) : DB × Bool)
            else tickGo (some (i + (j2 + 1))) (i + 1) rest changes demands now r
              (simUpdateFlight f (changes i) (demands i) now r work) orig) = (orig, true)
          rw [if_neg (by simp)]
          have he : i + (j2 + 1) = (i + 1) + j2 := by omega
          rw [he]
          exact ih (i + 1) j2 _ orig (by simpa using hj)

theorem simulate_market_tick_fail (db : DB) (changes : Nat → Int) (demands : Nat → ℚ)
    (now r : ℚ) (i : Nat) (hi : i < db.flights.length) :
    simulate_market_tick (some i) changes demands now r db = (db, true) := by
  have h := tickGo_fail changes demands now r db.flights 0 i db db hi
  rw [Nat.zero_add] at h
  exact h

/-! ## Lookup of a member booking by its unique id -/

theorem find?_append_of_none {α : Type} (p : α → Bool) (l1 l2 : List α)
    (h : l1.find? p = none) : (l1 ++ l2).find? p = l2.find? p := by
  induction l1 with
  | nil => rfl
  | cons a t ih =>
      have hall := List.find?_eq_none.mp h
      rw [List.cons_append, List.find?_cons_of_neg _ (hall a (List.mem_cons_self a t))]
      exact ih (List.find?_eq_none.mpr (fun x hx => hall x (List.mem_cons_of_mem a hx)))

theorem find?_key_of_mem_nodup (l : List Booking) (b : Booking)
    (hn : (l.map Booking.booking_id).Nodup) (hb : b ∈ l) :
    l.find? (fun x => x.booking_id == b.booking_id) = some b := by
  obtain ⟨l1, l2, hsplit, hfresh⟩ := split_of_mem_nodup_keys Booking.booking_id hn hb
  rw [hsplit]
  rw [find?_append_of_none _ l1 _ (List.find?_eq_none.mpr (fun x hx => by
    simp [hfresh x (List.mem_append_left l2 hx)]))]
  rw [List.find?_cons_of_pos _ (by simp)]

/-! ## Claim theorems -/

/-- C1 counterexample.  The claim "0 ≤ seats_available ≤ total_seats in every
reachable state; the increment on cancel never exceeds total_seats" is false
on the code: `cancel_booking` (and the payment-failure branch) runs an
unconditional `seats_available + 1` with no capacity cap, and the market
simulator can refill the seat a hold is occupying.  Concretely: flight with
5/5 seats; one hold (4/5, booking PENDING); one simulator tick drawing
`change = +1` (back to 5/5); cancelling the still-open booking yields 6/5. -/
theorem c1_seat_bounds_cex :
    MReachable cex1_init cex1_s3 ∧ ¬ SeatBounds cex1_s3 := by
  have s1 : MStep cex1_init cex1_s1 := MStep.user (.hold 1 "a@b.c" 0 0) cex1_init
  have s2 : MStep cex1_s1 cex1_s2 :=
    MStep.sim (fun _ => 1) (fun _ => 0) 0 0 cex1_s1 (fun i => by
      show validChange 1
      unfold validChange
      decide)
  have s3 : MStep cex1_s2 cex1_s3 := MStep.user (.cancelC "1") cex1_s2
  refine ⟨?_, by unfold SeatBounds; decide⟩
  exact Relation.ReflTransGen.tail
    (Relation.ReflTransGen.tail (Relation.ReflTransGen.single s1) s2) s3

/-- C1 (amended): under the booking operations alone — any sequence of
hold/pay/cancel requests, without the market simulator's seat churn — every
flight of every state reachable from a fresh state satisfies
`0 ≤ seats_available ≤ total_seats`. -/
theorem c1_seat_bounds (db : DB) (ops : List Op) (h : GoodInit db) :
    SeatBounds (runOps db ops) := by
  obtain ⟨_, hpos, hled⟩ := inv_runOps db ops (goodInit_inv db h)
  intro f hf
  refine ⟨hpos f hf, ?_⟩
  have h2 := hled f hf
  have h3 : 0 ≤ (activeCount (runOps db ops) f.flight_id : Int) := Int.ofNat_nonneg _
  omega

theorem c1_seat_bounds_witness :
    SeatBounds (runOps wit_db [.hold 3 "w@x.io" 0 0, .payB 1 false drawA]) :=
  c1_seat_bounds wit_db [.hold 3 "w@x.io" 0 0, .payB 1 false drawA]
    (by unfold GoodInit; decide)

/-- C2: after any sequence of hold, pay and cancel operations from a fresh
state, every flight satisfies
`seats_available = total_seats - #(bookings in PENDING or CONFIRMED)`. -/
theorem c2_ledger_equation (db : DB) (ops : List Op) (h : GoodInit db) :
    LedgerEq (runOps db ops) :=
  (inv_runOps db ops (goodInit_inv db h)).2.2

theorem c2_ledger_equation_witness :
    LedgerEq (runOps wit_db [.hold 3 "w@x.io" 0 0, .hold 3 "v@x.io" 0 0,
      .payB 1 true drawA, .cancelC "2"]) :=
  c2_ledger_equation wit_db _ (by unfold GoodInit; decide)

/-- C3: serving N seat-hold requests for a flight with exactly K < N seats
available (in any serial order — the `SELECT ... FOR UPDATE` flight lock of
`start_booking` serializes every interleaving of the N concurrent requests
into such an order) yields exactly K successful holds, N−K
`NoSeatsAvailable` rejections, and a final seat count of 0. -/
theorem c3_no_double_sell (db : DB) (fid : Nat) (em : String) (now r : ℚ)
    (n k : Nat) (f0 : Flight) (hff : findFlight db fid = some f0)
    (hsk : f0.seats_available = (k : Int)) (hkn : k < n) :
    (runHolds fid em now r n db).1.countP isOkResult = k ∧
    (runHolds fid em now r n db).1.countP isNoSeats = n - k ∧
    findFlight (runHolds fid em now r n db).2 fid
      = some { f0 with seats_available := 0 } :=
  runHolds_spec fid em now r n k db f0 hff hsk hkn

theorem c3_no_double_sell_witness :
    (runHolds 4 "w@x.io" 0 0 3 wit3_db).1.countP isOkResult = 2 ∧
    (runHolds 4 "w@x.io" 0 0 3 wit3_db).1.countP isNoSeats = 3 - 2 ∧
    findFlight (runHolds 4 "w@x.io" 0 0 3 wit3_db).2 4
      = some { (⟨4, 900, 2, 2, 0⟩ : Flight) with seats_available := 0 } :=
  c3_no_double_sell wit3_db 4 "w@x.io" 0 0 3 2 ⟨4, 900, 2, 2, 0⟩
    (by decide) (by decide) (by decide)

/-- C4: `start_booking` fails with FlightNotFound when no flight has the id,
fails with NoSeatsAvailable when `seats_available ≤ 0` under the lock, and
otherwise creates exactly one new PENDING booking (appended to the Bookings
table) and decrements that flight's `seats_available` by exactly 1, leaving
every other flight unchanged; on any failure the state is untouched (the
insert and the decrement are one atomic transaction). -/
theorem c4_start_hold (db : DB) (fid : Nat) (em : String) (now r : ℚ) :
    (findFlight db fid = none →
      start_booking db fid em now r = .error .FlightNotFound) ∧
    (∀ f0, findFlight db fid = some f0 → f0.seats_available ≤ 0 →
      start_booking db fid em now r = .error .NoSeatsAvailable) ∧
    (∀ f0, findFlight db fid = some f0 → 0 < f0.seats_available →
      ∃ db2 b, start_booking db fid em now r = .ok (db2, b) ∧
        b.status = .PENDING ∧ b.pnr = none ∧ b.flight_id = fid ∧
        db2.bookings = db.bookings ++ [b] ∧
        findFlight db2 fid = some { f0 with seats_available := f0.seats_available - 1 } ∧
        (∀ fid2, fid2 ≠ fid → findFlight db2 fid2 = findFlight db fid2)) ∧
    (∀ e, start_booking db fid em now r = .error e →
      applyOp db (.hold fid em now r) = db) := by
  refine ⟨?_, ?_, ?_, ?_⟩
  · intro h
    unfold start_booking
    rw [h]
  · intro f0 hff hs
    exact start_booking_zero db fid em now r f0 hff hs
  · intro f0 hff hpos
    refine ⟨_, _, start_booking_pos db fid em now r f0 hff (by omega),
      rfl, rfl, rfl, ?_, ?_, ?_⟩
    · show (resolvePassenger db em).2.bookings ++ _ = db.bookings ++ _
      rw [resolvePassenger_bookings]
    · have h1 : findFlight (updateFlightSeats
          { (resolvePassenger db em).2 with
              bookings := (resolvePassenger db em).2.bookings ++
                [⟨db.next_booking_id, fid, (resolvePassenger db em).1,
                  mkSeatNo f0.total_seats f0.seats_available, .PENDING, .PENDING, none,
                  calculate_dynamic_price f0.base_fare f0.seats_available f0.total_seats
                    f0.departure_time none now r⟩],
              next_booking_id := db.next_booking_id + 1 } fid (-1)) fid
          = some { f0 with seats_available := f0.seats_available + (-1) } := by
        apply findFlight_updateFlightSeats_self
        show ((resolvePassenger db em).2.flights.find? (fun f => f.flight_id == fid))
          = some f0
        rw [resolvePassenger_flights]
        exact hff
      rw [h1]
      have he : f0.seats_available + (-1) = f0.seats_available - 1 := by omega
      rw [he]
    · intro fid2 hne
      rw [findFlight_updateFlightSeats_other _ fid fid2 (-1) hne]
      show ((resolvePassenger db em).2.flights.find? (fun f => f.flight_id == fid2))
        = findFlight db fid2
      rw [resolvePassenger_flights]
      rfl
  · intro e he
    show (match start_booking db fid em now r with
      | .ok p => p.1
      | .error _ => db) = db
    rw [he]

theorem c4_start_hold_witness :
    start_booking wit_db 99 "w@x.io" 0 0 = .error .FlightNotFound :=
  (c4_start_hold wit_db 99 "w@x.io" 0 0).1 (by decide)

/-- C5: `confirm_payment` fails with BookingNotFound for an unknown id and
with InvalidState (the 400 Conflict) when the booking is not PENDING — so a
second pay of the same booking always fails; the confirmation code is a
fixed-length (6) string over the uppercase-alphanumeric alphabet; on success
it sets CONFIRMED / PAID / the code and leaves the Flights table untouched;
on failure it sets CANCELLED / FAILED and increments the booking's flight's
`seats_available` by exactly 1, leaving other flights unchanged. -/
theorem c5_pay (db : DB) (bid : Nat) (s : Bool) (d : Fin 6 → Fin 36) :
    (findBooking db bid = none →
      confirm_payment db bid s d = .error .BookingNotFound) ∧
    (∀ b, findBooking db bid = some b → b.status ≠ .PENDING →
      confirm_payment db bid s d = .error .InvalidState) ∧
    ((generate_pnr d).length = 6 ∧ ∀ c ∈ (generate_pnr d).data, c ∈ pnrAlphabet) ∧
    (∀ b, findBooking db bid = some b → b.status = .PENDING → s = true →
      ∃ db2, confirm_payment db bid s d = .ok db2 ∧
        db2.flights = db.flights ∧
        findBooking db2 bid = some { b with
          status := .CONFIRMED
          payment_status := .PAID
          pnr := some (generate_pnr d) }) ∧
    (∀ b, findBooking db bid = some b → b.status = .PENDING → s = false →
      ∃ db2, confirm_payment db bid s d = .ok db2 ∧
        findBooking db2 bid = some { b with
          status := .CANCELLED
          payment_status := .FAILED } ∧
        (∀ f0, findFlight db b.flight_id = some f0 →
          findFlight db2 b.flight_id
            = some { f0 with seats_available := f0.seats_available + 1 }) ∧
        (∀ fid2, fid2 ≠ b.flight_id → findFlight db2 fid2 = findFlight db fid2)) ∧
    (∀ b db2, findBooking db bid = some b → b.status = .PENDING →
      confirm_payment db bid s d = .ok db2 →
      ∀ s2 d2, confirm_payment db2 bid s2 d2 = .error .InvalidState) := by
  refine ⟨?_, ?_, ⟨?_, ?_⟩, ?_, ?_, ?_⟩
  · intro h
    unfold confirm_payment
    rw [h]
  · intro b hb hst
    unfold confirm_payment
    rw [hb]
    simp [hst]
  · show (String.mk _).length = 6
    simp [String.length]
  · intro c hc
    have hc2 : c ∈ ((List.finRange 6).map
        (fun i => pnrAlphabet.get (Fin.cast (by decide) (d i)))) := hc
    obtain ⟨i, _, rfl⟩ := List.mem_map.mp hc2
    exact pnrAlphabet.get_mem _ _
  · intro b hb hP hs
    subst hs
    have heq : confirm_payment db bid true d = .ok (updateBooking db bid (fun x =>
        { x with
            status := .CONFIRMED
            pnr := some (generate_pnr d)
            payment_status := .PAID })) := by
      unfold confirm_payment
      rw [hb]
      simp [hP]
    refine ⟨_, heq, rfl, ?_⟩
    rw [findBooking_updateBooking_self db bid (fun x =>
      { x with
          status := .CONFIRMED
          pnr := some (generate_pnr d)
          payment_status := .PAID }) (fun x => rfl) b hb]
  · intro b hb hP hs
    subst hs
    have heq : confirm_payment db bid false d = .ok (updateFlightSeats
        (updateBooking db bid (fun x =>
          { x with
              status := .CANCELLED
              payment_status := .FAILED })) b.flight_id 1) := by
      unfold confirm_payment
      rw [hb]
      simp [hP]
    refine ⟨_, heq, ?_, ?_, ?_⟩
    · show findBooking (updateBooking db bid (fun x =>
        { x with
            status := .CANCELLED
            payment_status := .FAILED })) bid = _
      rw [findBooking_updateBooking_self db bid (fun x =>
        { x with
            status := .CANCELLED
            payment_status := .FAILED }) (fun x => rfl) b hb]
    · intro f0 hf0
      exact findFlight_updateFlightSeats_self _ b.flight_id 1 f0 hf0
    · intro fid2 hne
      rw [findFlight_updateFlightSeats_other _ b.flight_id fid2 1 hne]
      rfl
  · intro b db2 hb hP hok s2 d2
    cases hs2 : s with
    | true =>
        subst hs2
        have heq : confirm_payment db bid true d = .ok (updateBooking db bid (fun x =>
            { x with
                status := .CONFIRMED
                pnr := some (generate_pnr d)
                payment_status := .PAID })) := by
          unfold confirm_payment
          rw [hb]
          simp [hP]
        rw [heq] at hok
        have hX := Except.ok.inj hok
        rw [← hX]
        have hfb2 := findBooking_updateBooking_self db bid (fun x =>
          { x with
              status := .CONFIRMED
              pnr := some (generate_pnr d)
              payment_status := .PAID }) (fun x => rfl) b hb
        unfold confirm_payment
        rw [hfb2]
        simp
    | false =>
        subst hs2
        have heq : confirm_payment db bid false d = .ok (updateFlightSeats
            (updateBooking db bid (fun x =>
              { x with
                  status := .CANCELLED
                  payment_status := .FAILED })) b.flight_id 1) := by
          unfold confirm_payment
          rw [hb]
          simp [hP]
        rw [heq] at hok
        have hX := Except.ok.inj hok
        rw [← hX]
        have hfb2 : findBooking (updateFlightSeats
            (updateBooking db bid (fun x =>
              { x with
                  status := .CANCELLED
                  payment_status := .FAILED })) b.flight_id 1) bid
            = some { b with
                status := .CANCELLED
                payment_status := .FAILED } := by
          show findBooking (updateBooking db bid (fun x =>
            { x with
                status := .CANCELLED
                payment_status := .FAILED })) bid = _
          rw [findBooking_updateBooking_self db bid (fun x =>
            { x with
                status := .CANCELLED
                payment_status := .FAILED }) (fun x => rfl) b hb]
        unfold confirm_payment
        rw [hfb2]
        simp

theorem c5_pay_witness :
    confirm_payment wit_db 42 true drawA = .error .BookingNotFound :=
  (c5_pay wit_db 42 true drawA).1 (by decide)

/-- C6: `cancel_booking` fails with BookingNotFound when neither a pnr nor a
raw decimal booking id matches the request string, fails with
AlreadyCancelled when the matched booking is already CANCELLED, and
otherwise flips the booking to CANCELLED — payment status and pnr untouched
— and increments the booking's flight's `seats_available` by exactly 1,
leaving other flights unchanged; a second cancel of the same booking is then
rejected with AlreadyCancelled.  (The per-booking statements assume the
booking ids are distinct, which `Inv` guarantees for every state the
workflow produces.) -/
theorem c6_cancel (db : DB) (code : String) :
    ((∀ b ∈ db.bookings, b.pnr ≠ some code ∧ toString b.booking_id ≠ code) →
      cancel_booking db code = .error .BookingNotFound) ∧
    (∀ b, db.bookings.find? (cancelMatches code) = some b → b.status = .CANCELLED →
      cancel_booking db code = .error .AlreadyCancelled) ∧
    ((db.bookings.map Booking.booking_id).Nodup →
      ∀ b, db.bookings.find? (cancelMatches code) = some b → b.status ≠ .CANCELLED →
      ∃ db2, cancel_booking db code = .ok db2 ∧
        findBooking db2 b.booking_id = some { b with status := .CANCELLED } ∧
        ({ b with status := .CANCELLED } : Booking).payment_status = b.payment_status ∧
        ({ b with status := .CANCELLED } : Booking).pnr = b.pnr ∧
        (∀ f0, findFlight db b.flight_id = some f0 →
          findFlight db2 b.flight_id
            = some { f0 with seats_available := f0.seats_available + 1 }) ∧
        (∀ fid2, fid2 ≠ b.flight_id → findFlight db2 fid2 = findFlight db fid2) ∧
        cancel_booking db2 code = .error .AlreadyCancelled) := by
  refine ⟨?_, ?_, ?_⟩
  · intro h
    unfold cancel_booking
    rw [List.find?_eq_none.mpr (fun x hx => by
      have h2 := h x hx
      unfold cancelMatches
      simp [h2.1, h2.2])]
  · intro b hb hst
    unfold cancel_booking
    rw [hb]
    simp [hst]
  · intro hn b hb hst
    have hmem : b ∈ db.bookings := List.mem_of_find?_eq_some hb
    have hfbid : findBooking db b.booking_id = some b :=
      find?_key_of_mem_nodup db.bookings b hn hmem
    have heq : cancel_booking db code = .ok (updateFlightSeats
        (updateBooking db b.booking_id (fun x => { x with status := .CANCELLED }))
        b.flight_id 1) := by
      unfold cancel_booking
      rw [hb]
      simp [hst]
    refine ⟨_, heq, ?_, rfl, rfl, ?_, ?_, ?_⟩
    · show findBooking (updateBooking db b.booking_id
        (fun x => { x with status := .CANCELLED })) b.booking_id = _
      rw [findBooking_updateBooking_self db b.booking_id
        (fun x => { x with status := .CANCELLED }) (fun x => rfl) b hfbid]
    · intro f0 hf0
      exact findFlight_updateFlightSeats_self _ b.flight_id 1 f0 hf0
    · intro fid2 hne
      rw [findFlight_updateFlightSeats_other _ b.flight_id fid2 1 hne]
      rfl
    · have hfc : (updateFlightSeats
          (updateBooking db b.booking_id (fun x => { x with status := .CANCELLED }))
          b.flight_id 1).bookings.find? (cancelMatches code)
          = some { b with status := .CANCELLED } := by
        show (updateBooking db b.booking_id
          (fun x => { x with status := .CANCELLED })).bookings.find?
            (cancelMatches code) = _
        rw [find_cancel_updateBooking db b.booking_id
          (fun x => { x with status := .CANCELLED }) (fun x => rfl) (fun x => rfl) code, hb]
        simp
      unfold cancel_booking
      rw [hfc]
      simp

theorem c6_cancel_witness :
    cancel_booking wit_db "ZZZZZZ" = .error .BookingNotFound :=
  (c6_cancel wit_db "ZZZZZZ").1 (by decide)

/-- C7 counterexample.  The claim "a booking has a non-null confirmation
code iff its status is CONFIRMED" is false on the code: `cancel_booking`
only sets `status = 'CANCELLED'` and never clears the pnr, so cancelling a
CONFIRMED booking leaves a CANCELLED booking that still carries its code.
Concretely: hold the only seat, pay with forced success (code "AAAAAA"),
cancel by raw booking id "1" — the final booking is CANCELLED with
pnr = some "AAAAAA". -/
theorem c7_pnr_iff_cex :
    ¬ (∀ b ∈ (runOps cex7_init cex7_ops).bookings,
        (b.pnr ≠ none ↔ b.status = BookingStatus.CONFIRMED)) := by
  decide

/-- C7 (amended): in every state reachable under hold/pay/cancel operations
and simulator ticks, a CONFIRMED booking always has a non-null confirmation
code and a PENDING booking never has one; a CANCELLED booking, however, may
retain the code it received when it was confirmed. -/
theorem c7_pnr_discipline (s t : DB) (h : PnrOK s) (hr : MReachable s t) :
    PnrOK t :=
  reach_pnrok hr h

theorem c7_pnr_discipline_witness :
    PnrOK (applyOp cex7_init (.hold 1 "a@b.c" 0 0)) :=
  c7_pnr_discipline cex7_init (applyOp cex7_init (.hold 1 "a@b.c" 0 0))
    (by unfold PnrOK; decide)
    (Relation.ReflTransGen.single (MStep.user (.hold 1 "a@b.c" 0 0) cex7_init))

/-- C8: for valid inputs (positive baseline, 0 ≤ seats ≤ total, total ≥ 1)
the quoted price is `baseline × (1 + scarcity + time + demand + tier)`,
floored at the fixed minimum 50 and rounded to 2 decimals; the scarcity
multiplier takes its largest value 0.8 exactly when the seat ratio is under
10% and its only negative value -0.05 when the ratio is at least 50%; the
time multiplier is steepest (0.6) within 24 hours, mild (0.25) within a week
and slightly negative (-0.05) beyond; the demand multiplier is the supplied
signal clamped to [-0.5, 1.0] times 0.4, and when the signal is omitted the
ambient uniform draw from [-0.1, 0.4] substitutes for it. -/
theorem c8_price_formula (base : ℚ) (seats total : Int) (dep now r d : ℚ)
    (hbase : 0 < base) (hs0 : 0 ≤ seats) (hst : seats ≤ total) (ht1 : 1 ≤ total) :
    (calculate_dynamic_price base seats total dep (some d) now r
      = round2 (max 50 (base * (1 + seatFactor seats total + timeFactor dep now
          + (max (-(1/2)) (min 1 d)) * (2/5) + tierBonus base)))) ∧
    (calculate_dynamic_price base seats total dep none now r
      = round2 (max 50 (base * (1 + seatFactor seats total + timeFactor dep now
          + r + tierBonus base)))) ∧
    ((seats : ℚ) / (total : ℚ) < 1/10 → seatFactor seats total = 4/5) ∧
    (1/2 ≤ (seats : ℚ) / (total : ℚ) → seatFactor seats total = -(1/20)) ∧
    (∀ s2 t2 : Int, seatFactor s2 t2 ≤ 4/5 ∧ -(1/20) ≤ seatFactor s2 t2) ∧
    (max 0 ((dep - now) / 3600) ≤ 24 → timeFactor dep now = 3/5) ∧
    (24 < max 0 ((dep - now) / 3600) → max 0 ((dep - now) / 3600) ≤ 168 →
      timeFactor dep now = 1/4) ∧
    (168 < max 0 ((dep - now) / 3600) → timeFactor dep now = -(1/20)) ∧
    (∀ dep2 now2 : ℚ, timeFactor dep2 now2 ≤ 3/5) := by
  have hmax : ((max 1 total : Int) : ℚ) = (total : ℚ) := by
    rw [max_eq_right ht1]
  refine ⟨rfl, rfl, ?_, ?_, ?_, ?_, ?_, ?_, ?_⟩
  · intro hr2
    unfold seatFactor
    rw [hmax, if_pos hr2]
  · intro hr2
    unfold seatFactor
    rw [hmax, if_neg (by linarith), if_neg (by linarith), if_neg (by linarith)]
  · intro s2 t2
    unfold seatFactor
    constructor
    · dsimp only
      split_ifs <;> norm_num
    · dsimp only
      split_ifs <;> norm_num
  · intro hh
    unfold timeFactor
    rw [if_pos hh]
  · intro hh1 hh2
    unfold timeFactor
    rw [if_neg (by linarith), if_pos hh2]
  · intro hh
    unfold timeFactor
    rw [if_neg (by linarith), if_neg (by linarith)]
  · intro dep2 now2
    unfold timeFactor
    dsimp only
    split_ifs <;> norm_num

theorem c8_price_formula_witness : seatFactor 0 10 = 4/5 := by
  have h := c8_price_formula 1000 0 10 0 0 0 0
    (by norm_num) (by norm_num) (by norm_num) (by norm_num)
  exact h.2.2.1 (by norm_num)

/-- C9 counterexample.  The claim that the price is a pure function of its
explicit arguments "including the injectable `now`" is false on the code:
`calculate_dynamic_price` takes no `now` parameter — it reads
`datetime.now(timezone.utc)` itself.  With identical explicit arguments
(baseline 1000, 10/10 seats, departure at t = 720000 s, demand signal 0)
two calls at ambient times 684000 s (10 h before departure → 0.6 time
multiplier, price 1550.00) and 0 s (200 h before → -0.05, price 900.00)
return different prices. -/
theorem c9_determinism_cex :
    calculate_dynamic_price 1000 10 10 720000 (some 0) 684000 0
      ≠ calculate_dynamic_price 1000 10 10 720000 (some 0) 0 0 := by
  have h1 : calculate_dynamic_price 1000 10 10 720000 (some 0) 684000 0 = 1550 := by
    unfold calculate_dynamic_price seatFactor timeFactor demandFactor tierBonus round2
    norm_num
  have h2 : calculate_dynamic_price 1000 10 10 720000 (some 0) 0 0 = 900 := by
    unfold calculate_dynamic_price seatFactor timeFactor demandFactor tierBonus round2
    norm_num
  rw [h1, h2]
  norm_num

/-- C9 (amended): with an explicitly supplied demand signal the price is
independent of the ambient random draw, and it is a deterministic function
of (baseline, seats, total, departure, signal) together with the ambient
clock reading at call time; the ambient clock, however, is a hidden input —
it is not one of the function's parameters. -/
theorem c9_determinism (base : ℚ) (seats total : Int) (dep d now r1 r2 : ℚ) :
    calculate_dynamic_price base seats total dep (some d) now r1
      = calculate_dynamic_price base seats total dep (some d) now r2 := rfl

/-- C10 counterexample.  The claim "a failure while updating one flight does
not abort the processing of the remaining flights of the tick, and already
applied changes are not rolled back" is false on the code: the whole
per-tick `for` loop sits in one `try` with a single `db.commit()` after it,
so an exception skips the remaining flights and `db.rollback()` discards
everything.  Concretely: two flights at 5/10 seats, deltas -2; a failure at
the first flight returns the original state (flight 2 not updated, no fare
history), while the failure-free tick would have moved both to 3/10. -/
theorem c10_tick_isolation_cex :
    (simulate_market_tick (some 0) (fun _ => -2) (fun _ => 0) 0 0 cex10_db
      = (cex10_db, true)) ∧
    (simulate_market_tick none (fun _ => -2) (fun _ => 0) 0 0 cex10_db).1.flights
      ≠ cex10_db.flights := by
  exact ⟨by decide, by decide⟩

/-- C10 (amended): a failure while updating any flight of a tick makes the
whole tick roll back — the returned state is exactly the pre-tick state, no
flight of that tick keeps an update, and the error is logged — and the loop
continues on its schedule: the following ticks run exactly as if the failing
tick had never happened. -/
theorem c10_tick_rollback (db : DB) (changes : Nat → Int) (demands : Nat → ℚ)
    (now r : ℚ) (i : Nat)
    (ticks : List (Option Nat × (Nat → Int) × (Nat → ℚ) × ℚ × ℚ))
    (hi : i < db.flights.length) :
    simulate_market_tick (some i) changes demands now r db = (db, true) ∧
    simulate_market_run ((some i, changes, demands, now, r) :: ticks) db
      = simulate_market_run ticks db := by
  have h1 := simulate_market_tick_fail db changes demands now r i hi
  refine ⟨h1, ?_⟩
  show simulate_market_run ticks
    (simulate_market_tick (some i) changes demands now r db).1 = _
  rw [h1]

theorem c10_tick_rollback_witness :
    simulate_market_tick (some 0) (fun _ => 1) (fun _ => 0) 0 0 wit_db
      = (wit_db, true) ∧
    simulate_market_run [(some 0, (fun _ => 1), (fun _ => 0), 0, 0)] wit_db
      = simulate_market_run [] wit_db :=
  c10_tick_rollback wit_db (fun _ => 1) (fun _ => 0) 0 0 0 [] (by decide)

end FlightSim